import Mathlib

/-!
Verification development for the djangopypi package registry.

The definitions below are a shallow embedding of the Python sources:

* `djangopypi/conf.py` — configuration constants (`METADATA_FIELDS`,
  `ACTION_VIEWS`, `FALLBACK_VIEW`, ...), and the set of attribute names the
  `conf` module actually defines;
* `djangopypi/management/commands/ppadd.py` — the `Command._save_package`
  ingestion operation together with its helpers `_get_filetype`, `_get_md5`
  and `_get_pkg_info`;
* `djangopypi/views/__init__.py` — the `root` protocol-dispatch view.

Python values reachable from a metadata descriptor are modelled by `PyVal`
(strings, lists of strings, `None`); the Django database is modelled by an
explicit `Store` of rows, and each ORM call used by the code (`get`,
`save`, `get_or_create`, m2m `add`) is embedded as an explicit operation on
the `Store`.  The `hashlib.md5` object is modelled by the byte sequence it
has absorbed, with an arbitrary digest function `md5hex` applied at the end:
the library's contract is that the digest depends only on the concatenation
of the bytes fed to `update`.
-/

namespace DjangoPyPI

/-- A Python value as it appears on a `pkginfo` metadata descriptor:
a string, a list of strings, or `None`. -/
inductive PyVal where
  | str (s : String)
  | strList (l : List String)
  | pyNone
deriving DecidableEq

/-- Python truthiness for `PyVal`: `None`, `""` and `[]` are falsy. -/
def PyVal.truthy : PyVal → Bool
  | .str s => !(s == "")
  | .strList l => !l.isEmpty
  | .pyNone => false

/-- Python's `a or b`. -/
def pyOr (a b : PyVal) : PyVal := if a.truthy then a else b

/-- View a `PyVal` as a list of strings (used for `meta.classifiers`). -/
def PyVal.asList : PyVal → List String
  | .strList l => l
  | _ => []

/-- A metadata descriptor as returned by `pkginfo.get_metadata`: an object
whose (non-dunder) attributes are probed by name.  `pkginfo` initialises
every metadata attribute, so attribute access never raises; absent values
are `None`. -/
structure Meta where
  attrs : List (String × PyVal)
deriving DecidableEq

/-- `getattr(meta, k)`: look the attribute up by name, `None` when unset. -/
def Meta.getattr (m : Meta) (k : String) : PyVal :=
  (((m.attrs.find? (fun p => p.1 == k)).map (fun p => p.2)).getD .pyNone)

/-- `dir(meta)` restricted to the descriptor's data attributes (the dunder
and method names that `dir` also lists all either start with an underscore
or are not metadata field names, so they are dropped by the filters in
`_get_pkg_info` either way). -/
def dirMeta (m : Meta) : List String := m.attrs.map (fun p => p.1)

/-! ## `djangopypi/conf.py` -/

/-- `conf.ALLOW_VERSION_OVERWRITE` (default; no settings override). -/
def ALLOW_VERSION_OVERWRITE : Bool := false

/-- `conf.RELEASE_UPLOAD_TO`. -/
def RELEASE_UPLOAD_TO : String := "dists"

/-- `conf.METADATA_FIELDS`: the dict from metadata-version string to the
tuple of legal field names; `none` models a `KeyError` on lookup. -/
def METADATA_FIELDS : String → Option (List String)
  | "1.0" => some ["platforms", "summary", "description", "keywords",
      "home_page", "author", "author_email", "license"]
  | "1.1" => some ["platforms", "supported_platforms", "summary",
      "description", "keywords", "home_page", "download_url", "author",
      "author_email", "license", "classifiers", "requires", "provides",
      "obsoletes"]
  | "1.2" => some ["platforms", "supported_platforms", "summary",
      "description", "keywords", "home_page", "download_url", "author",
      "author_email", "maintainer", "maintainer_email", "license",
      "classifiers", "requires_dist", "provides_dist", "obsoletes_dist",
      "requires_python", "requires_external", "project_url"]
  | _ => none

/-- `conf.METADATA_FIELDS[v]` where `v` is the (Python) value of
`meta.metadata_version`; a non-string key is never in the dict. -/
def metadataFieldsOf : PyVal → Option (List String)
  | .str s => METADATA_FIELDS s
  | _ => none

/-- `conf.ACTION_VIEWS`: the dict from `:action` name to view path. -/
def ACTION_VIEWS : List (String × String) :=
  [("file_upload", "djangopypi.views.distutils.register_or_upload"),
   ("submit", "djangopypi.views.distutils.register_or_upload"),
   ("list_classifiers", "djangopypi.views.distutils.list_classifiers")]

/-- `conf.XMLRPC_COMMANDS`. -/
def XMLRPC_COMMANDS : List (String × String) :=
  [("list_packages", "djangopypi.views.xmlrpc.list_packages"),
   ("package_releases", "djangopypi.views.xmlrpc.package_releases"),
   ("release_urls", "djangopypi.views.xmlrpc.release_urls"),
   ("release_data", "djangopypi.views.xmlrpc.release_data")]

/-- `conf.FALLBACK_VIEW`. -/
def FALLBACK_VIEW : String := "djangopypi.views.releases.index"

/-- Attribute lookup on the `conf` module for its dict-of-strings valued
attributes (with no `DJANGOPYPI_*` settings overrides, the module's
namespace is exactly what `conf.py` defines; in particular there is no
attribute named `ACTION_VIEW`).  `none` models an `AttributeError`. -/
def confGetDictAttr (name : String) : Option (List (String × String)) :=
  if name == "ACTION_VIEWS" then some ACTION_VIEWS
  else if name == "XMLRPC_COMMANDS" then some XMLRPC_COMMANDS
  else none

/-! ## `Command._get_filetype` -/

/-- Python's `str.endswith`: suffix test on the character sequence. -/
def strEndsWith (s suffix : String) : Bool :=
  suffix.data.isSuffixOf s.data

/-- Python's `str.startswith`: prefix test on the character sequence. -/
def strStartsWith (s pre : String) : Bool :=
  pre.data.isPrefixOf s.data

/-- Python's `c in s` on strings: character containment. -/
def strContainsChar (s : String) (c : Char) : Bool :=
  s.data.contains c

/-- `Command._get_filetype` from `ppadd.py`. -/
def getFiletype (filename : String) : String :=
  if strEndsWith filename ".zip" || strEndsWith filename ".tar.gz" then
    "sdist"
  else if strEndsWith filename ".egg" then
    "bdist"
  else
    "sdist"

/-! ## `Command._get_md5` -/

/-- `md5.update(block)` on the absorbed-bytes model of a `hashlib.md5`
object: the object's state is the concatenation of everything fed to it. -/
def md5Update (state block : List Nat) : List Nat := state ++ block

/-- The `while(1)` read loop of `_get_md5`: read blocks of
`md5.block_size = 64` bytes until `read` returns an empty block, feeding
each block to `md5.update`; returns the absorbed byte sequence. -/
def readLoop (content state : List Nat) : List Nat :=
  if content.isEmpty then state
  else readLoop (content.drop 64) (md5Update state (content.take 64))
termination_by content.length
decreasing_by
  simp only [List.length_drop]
  rename_i h
  have hpos : 0 < content.length := by
    cases content with
    | nil => simp at h
    | cons a t => simp
  omega

/-- `Command._get_md5` from `ppadd.py`, parameterised by the digest
function `md5hex` of the external `hashlib` capability. -/
def getMd5 (md5hex : List Nat → String) (content : List Nat) : String :=
  md5hex (readLoop content [])

/-! ## `Command._get_pkg_info` -/

/-- `Command._get_pkg_info` from `ppadd.py`:
`fields = conf.METADATA_FIELDS[meta.metadata_version]` (a `KeyError`,
modelled by `none`, when the version is unknown), then the dict
comprehension over `dir(meta)` keeping keys that are in `fields` and do
not start with an underscore, each mapped to the one-element list
`[getattr(meta, key)]`. -/
def getPkgInfo (m : Meta) : Option (List (String × List PyVal)) :=
  match metadataFieldsOf (m.getattr "metadata_version") with
  | none => none
  | some fields =>
    some ((dirMeta m).filterMap (fun key =>
      if fields.contains key && !(strStartsWith key "_") then
        some (key, [m.getattr key])
      else none))

/-! ## Registry Store: the rows written by `ppadd.py`

The Django models (`djangopypi/models.py`) are not among the sources; the
row shapes below carry exactly the columns that `_save_package` assigns. -/

/-- A `Package` row, with the columns `_save_package` assigns.  A freshly
constructed `Package(name=...)` instance has every other column unset. -/
structure PackageRec where
  name : PyVal
  owner : Option String := none
  license : PyVal := .pyNone
  metadata_version : PyVal := .pyNone
  author : PyVal := .pyNone
  home_page : PyVal := .pyNone
  download_url : PyVal := .pyNone
  summary : PyVal := .pyNone
  description : PyVal := .pyNone
  author_email : PyVal := .pyNone
deriving DecidableEq

/-- A `Release` row: foreign key to its package (by name), version, and
the `package_info` metadata blob produced by `_get_pkg_info`. -/
structure ReleaseRec where
  package : PyVal
  version : PyVal
  package_info : List (String × List PyVal)
deriving DecidableEq

/-- A `Distribution` row, with the columns `_save_package` assigns. -/
structure DistributionRec where
  package : PyVal
  version : PyVal
  content_name : String
  md5_digest : String
  filetype : String
  uploader : String
  comment : String
  pyversion : PyVal
  signature : String
deriving DecidableEq

/-- The Registry Store: the database tables `ppadd.py` writes.
`packageClassifiers` is the `Package.classifiers` many-to-many table. -/
structure Store where
  packages : List PackageRec := []
  classifiers : List String := []
  packageClassifiers : List (PyVal × String) := []
  releases : List ReleaseRec := []
  distributions : List DistributionRec := []
deriving DecidableEq

/-- A `django.contrib.auth` `User` row (the columns `ppadd.py` reads). -/
structure UserRec where
  username : String
  email : String
deriving DecidableEq

/-- `Package.objects.get(name=...)`: `none` models `Package.DoesNotExist`. -/
def findPackage (store : Store) (name : PyVal) : Option PackageRec :=
  store.packages.find? (fun p => p.name == name)

/-- Modelled from the spec: `Package.get_release(version)` lives in
`djangopypi/models.py`, which is not among the sources; per the spec's
Registry Store contract it is `findRelease(package, version) ->
Release|absent`. -/
def getRelease (store : Store) (pkgName version : PyVal) : Option ReleaseRec :=
  store.releases.find? (fun r => r.package == pkgName && r.version == version)

/-- `package.save()`: update the row in place when a row with this name
exists, insert it otherwise. -/
def savePackageRow (store : Store) (p : PackageRec) : Store :=
  if store.packages.any (fun q => q.name == p.name) then
    { store with packages :=
        store.packages.map (fun q => if q.name == p.name then p else q) }
  else
    { store with packages := store.packages ++ [p] }

/-- `Classifier.objects.get_or_create(name=c)`. -/
def getOrCreateClassifier (store : Store) (c : String) : Store :=
  if store.classifiers.contains c then store
  else { store with classifiers := store.classifiers ++ [c] }

/-- `package.classifiers.add(Classifier.objects.get_or_create(name=c)[0])`:
create the classifier row if needed, then add the m2m link (Django m2m
`add` is idempotent). -/
def addPackageClassifier (store : Store) (pkgName : PyVal) (c : String) :
    Store :=
  let store := getOrCreateClassifier store c
  if store.packageClassifiers.contains (pkgName, c) then store
  else { store with packageClassifiers :=
          store.packageClassifiers ++ [(pkgName, c)] }

/-- `path.split('/')[-1]`. -/
def lastPathComponent (path : String) : String :=
  (path.splitOn "/").getLastD ""

/-! ## `Command._save_package` -/

/-- The outcome of one `_save_package` call, as observable from its prints
and raised exceptions. -/
inductive SaveResult where
  /-- `_get_meta` returned `None`, so `meta.name` raises `AttributeError`
  before any database access. -/
  | metaNoneAttributeError
  /-- printed `"%s-%s already added"` and returned. -/
  | alreadyAdded (name version : PyVal)
  /-- printed `"No owner defined. Use --owner to force one"` and returned. -/
  | noOwner
  /-- `conf.METADATA_FIELDS[meta.metadata_version]` raised `KeyError`
  inside `_get_pkg_info`. -/
  | keyErrorMetadataVersion (v : PyVal)
  /-- printed `"%s-%s added"`. -/
  | added (name version : PyVal)
deriving DecidableEq

/-- Is the result the successful `added` outcome? -/
def SaveResult.isAdded : SaveResult → Bool
  | .added _ _ => true
  | _ => false

/-- `Command._save_package(path, ownerid)` from `ppadd.py`, as a state
transition on the Registry Store.  `md5hex` is the digest function of the
external `hashlib` capability, `users` the `User` table, `metaOpt` the
result of `_get_meta(path)` (the external `pkginfo` capability), `content`
the bytes of the file at `path`.  The returned store is the database state
when the call returns or when the modelled exception escapes. -/
def savePackage (md5hex : List Nat → String) (store : Store)
    (users : List UserRec) (metaOpt : Option Meta) (path : String)
    (content : List Nat) (ownerid : Option String) : SaveResult × Store :=
  match metaOpt with
  | none => (.metaNoneAttributeError, store)
  | some meta =>
    let name := meta.getattr "name"
    let version := meta.getattr "version"
    let existing := findPackage store name
    let isnewpackage := existing.isNone
    let package := existing.getD { name := name }
    let release := getRelease store name version
    if !isnewpackage &&
        (match release with
         | some r => r.version == version
         | none => false) then
      (.alreadyAdded name version, store)
    else
      let owner : Option UserRec :=
        match ownerid with
        | some oid =>
          if strContainsChar oid '@' then users.find? (fun u => u.email == oid)
          else users.find? (fun u => u.username == oid)
        | none =>
          users.find? (fun u => .str u.email == meta.getattr "author_email")
      match owner with
      | none => (.noOwner, store)
      | some theOwner =>
        let package := { package with
          owner := some theOwner.username
          license := pyOr (meta.getattr "license") (.str "Unknown")
          metadata_version := meta.getattr "metadata_version"
          author := meta.getattr "author"
          home_page := meta.getattr "home_page"
          download_url := meta.getattr "download_url"
          summary := meta.getattr "summary"
          description := meta.getattr "description"
          author_email := meta.getattr "author_email" }
        let store1 := savePackageRow store package
        let store2 := ((meta.getattr "classifiers").asList).foldl
          (fun s c => addPackageClassifier s name c) store1
        match getPkgInfo meta with
        | none =>
          (.keyErrorMetadataVersion (meta.getattr "metadata_version"), store2)
        | some info =>
          let rel : ReleaseRec :=
            { package := name, version := version, package_info := info }
          let store3 := { store2 with releases := store2.releases ++ [rel] }
          let dis : DistributionRec :=
            { package := name
              version := version
              content_name :=
                RELEASE_UPLOAD_TO ++ "/" ++ lastPathComponent path
              md5_digest := getMd5 md5hex content
              filetype := getFiletype path
              uploader := theOwner.username
              comment := ""
              pyversion := pyOr (meta.getattr "requires_python") (.str "")
              signature := "" }
          let store4 :=
            { store3 with distributions := store3.distributions ++ [dis] }
          (.added name version, store4)

/-! ## `root` from `djangopypi/views/__init__.py` -/

/-- The parts of a Django request that `root` inspects. -/
structure Request where
  method : String
  contentType : String
  postParams : List (String × String)
  getParams : List (String × String)
deriving DecidableEq

/-- `params.get(key, default)`. -/
def paramGet (params : List (String × String)) (k dflt : String) : String :=
  (((params.find? (fun p => p.1 == k)).map (fun p => p.2)).getD dflt)

/-- The observable outcome of the `root` view. -/
inductive RootResponse where
  /-- routed to `parse_xmlrpc_request`. -/
  | xmlrpc
  /-- delegated to the configured fallback view. -/
  | fallbackView (viewName : String)
  /-- an `HttpResponseNotAllowed` carrying the allowed action names. -/
  | methodNotAllowed (allowed : List String)
  /-- routed to the view registered for the action. -/
  | actionView (viewName : String)
  /-- an `AttributeError` escaped (attribute missing on the `conf`
  module). -/
  | attributeError (missing : String)
deriving DecidableEq

/-- The `root` view: XML-RPC content type goes to the RPC parser; an empty
action delegates to the fallback view; an unrecognised action executes
`HttpResponseNotAllowed(conf.ACTION_VIEW.keys())`, whose attribute lookup
is modelled by `confGetDictAttr "ACTION_VIEW"`; otherwise the action's
registered view runs. -/
def root (req : Request) : RootResponse :=
  if req.method == "POST" && req.contentType == "text/xml" then
    .xmlrpc
  else
    let action :=
      if req.method == "POST" then paramGet req.postParams ":action" ""
      else paramGet req.getParams ":action" ""
    if action == "" then
      .fallbackView FALLBACK_VIEW
    else if !(ACTION_VIEWS.any (fun p => p.1 == action)) then
      match confGetDictAttr "ACTION_VIEW" with
      | none => .attributeError "ACTION_VIEW"
      | some d => .methodNotAllowed (d.map (fun p => p.1))
    else
      .actionView (paramGet ACTION_VIEWS action "")

/-! ## Concrete fixtures for witnesses and counterexamples -/

/-- A constant digest function standing in for the external MD5 when a
concrete run only needs *some* digest function. -/
def constHex : List Nat → String := fun _ => "d41d8cd98f00b204e9800998ecf8427e"

/-- A registered user. -/
def alice : UserRec := { username := "alice", email := "alice@example.com" }

/-- A one-user `User` table. -/
def users0 : List UserRec := [alice]

/-- The empty Registry Store. -/
def store0 : Store := {}

/-- A descriptor for `foo 1.0` declaring metadata version `"1.0"`; it also
carries a `requires_python` attribute, which is not legal for `"1.0"`. -/
def meta10 : Meta :=
  { attrs := [("name", .str "foo"), ("version", .str "1.0"),
      ("metadata_version", .str "1.0"), ("author", .str "Alice"),
      ("author_email", .str "alice@example.com"),
      ("home_page", .str "http://example.com"), ("download_url", .pyNone),
      ("summary", .str "demo"), ("description", .str "demo package"),
      ("license", .str "MIT"), ("keywords", .str "demo"),
      ("platforms", .str "UNKNOWN"),
      ("classifiers", .strList ["Development Status :: 3 - Alpha"]),
      ("requires_python", .str ">=2.5")] }

/-- The same descriptor but declaring the unknown metadata version
`"9.9"`. -/
def meta99 : Meta :=
  { attrs := [("name", .str "foo"), ("version", .str "1.0"),
      ("metadata_version", .str "9.9"), ("author", .str "Alice"),
      ("author_email", .str "alice@example.com"),
      ("home_page", .str "http://example.com"), ("download_url", .pyNone),
      ("summary", .str "demo"), ("description", .str "demo package"),
      ("license", .str "MIT"), ("keywords", .str "demo"),
      ("platforms", .str "UNKNOWN"),
      ("classifiers", .strList ["Development Status :: 3 - Alpha"]),
      ("requires_python", .str ">=2.5")] }

/-- A descriptor for `foo 2.0` whose author email matches no registered
user. -/
def meta20ghost : Meta :=
  { attrs := [("name", .str "foo"), ("version", .str "2.0"),
      ("metadata_version", .str "1.0"), ("author", .str "Ghost"),
      ("author_email", .str "ghost@nowhere.example"),
      ("home_page", .str "http://example.com"), ("download_url", .pyNone),
      ("summary", .str "demo"), ("description", .str "demo package"),
      ("license", .str "MIT"), ("keywords", .str "demo"),
      ("platforms", .str "UNKNOWN"),
      ("classifiers", .strList ["Development Status :: 3 - Alpha"]),
      ("requires_python", .str ">=2.5")] }

/-- The `foo` package row, owned by alice. -/
def fooPkg : PackageRec :=
  { name := .str "foo", owner := some "alice", license := .str "MIT",
    metadata_version := .str "1.0", author := .str "Alice",
    home_page := .str "http://example.com", download_url := .pyNone,
    summary := .str "demo", description := .str "demo package",
    author_email := .str "alice@example.com" }

/-- The `foo 1.0` release row. -/
def fooRel : ReleaseRec :=
  { package := .str "foo", version := .str "1.0", package_info := [] }

/-- A store already holding `foo` (owned by alice) with release `1.0`. -/
def storeFoo : Store :=
  { packages := [fooPkg],
    classifiers := ["Development Status :: 3 - Alpha"],
    packageClassifiers := [(.str "foo", "Development Status :: 3 - Alpha")],
    releases := [fooRel], distributions := [] }

/-! ## Helper lemmas -/

/-- Two suffixes of the same list are nested by length; a shorter one that
is not a suffix of a longer one cannot coexist with it. -/
theorem suffix_disjoint {s a b : List Char} (ha : a <:+ s) (hb : b <:+ s)
    (hlen : a.length ≤ b.length) (hab : ¬ a <:+ b) : False :=
  hab (List.suffix_of_suffix_length_le ha hb hlen)

/-- Unfold `strEndsWith` into the suffix relation. -/
theorem strEndsWith_iff {s suffix : String} :
    strEndsWith s suffix = true ↔ suffix.data <:+ s.data := by
  simp [strEndsWith]

/-- `package.save()` never touches the `Release` table. -/
theorem savePackageRow_releases (s : Store) (p : PackageRec) :
    (savePackageRow s p).releases = s.releases := by
  unfold savePackageRow
  split <;> rfl

/-- `package.save()` never touches the `Distribution` table. -/
theorem savePackageRow_distributions (s : Store) (p : PackageRec) :
    (savePackageRow s p).distributions = s.distributions := by
  unfold savePackageRow
  split <;> rfl

/-- After `package.save()` the `Package` table has a row carrying the
saved package's name. -/
theorem savePackageRow_mem_name (s : Store) (p : PackageRec) :
    ∃ q, q ∈ (savePackageRow s p).packages ∧ q.name = p.name := by
  unfold savePackageRow
  split
  case isTrue h =>
    rw [List.any_eq_true] at h
    obtain ⟨q, hq, hqn⟩ := h
    refine ⟨p, ?_, rfl⟩
    exact List.mem_map.mpr ⟨q, hq, by rw [if_pos hqn]⟩
  case isFalse h =>
    exact ⟨p, by simp, rfl⟩

/-- Adding a classifier never touches the `Package` table rows. -/
theorem addPackageClassifier_packages (s : Store) (n : PyVal) (c : String) :
    (addPackageClassifier s n c).packages = s.packages := by
  simp only [addPackageClassifier, getOrCreateClassifier]
  (repeat' split) <;> rfl

/-- Adding a classifier never touches the `Release` table. -/
theorem addPackageClassifier_releases (s : Store) (n : PyVal) (c : String) :
    (addPackageClassifier s n c).releases = s.releases := by
  simp only [addPackageClassifier, getOrCreateClassifier]
  (repeat' split) <;> rfl

/-- Adding a classifier never touches the `Distribution` table. -/
theorem addPackageClassifier_distributions (s : Store) (n : PyVal)
    (c : String) :
    (addPackageClassifier s n c).distributions = s.distributions := by
  simp only [addPackageClassifier, getOrCreateClassifier]
  (repeat' split) <;> rfl

/-- The classifier loop of `_save_package` never touches the `Package`
table rows. -/
theorem foldl_addPC_packages (n : PyVal) (cs : List String) :
    ∀ s : Store,
      (cs.foldl (fun s c => addPackageClassifier s n c) s).packages
        = s.packages := by
  induction cs with
  | nil => intro s; rfl
  | cons c cs ih =>
    intro s
    rw [List.foldl_cons, ih, addPackageClassifier_packages]

/-- The classifier loop of `_save_package` never touches the `Release`
table. -/
theorem foldl_addPC_releases (n : PyVal) (cs : List String) :
    ∀ s : Store,
      (cs.foldl (fun s c => addPackageClassifier s n c) s).releases
        = s.releases := by
  induction cs with
  | nil => intro s; rfl
  | cons c cs ih =>
    intro s
    rw [List.foldl_cons, ih, addPackageClassifier_releases]

/-- The classifier loop of `_save_package` never touches the
`Distribution` table. -/
theorem foldl_addPC_distributions (n : PyVal) (cs : List String) :
    ∀ s : Store,
      (cs.foldl (fun s c => addPackageClassifier s n c) s).distributions
        = s.distributions := by
  induction cs with
  | nil => intro s; rfl
  | cons c cs ih =>
    intro s
    rw [List.foldl_cons, ih, addPackageClassifier_distributions]

/-- The blockwise read loop absorbs exactly the remaining content after
the bytes already absorbed. -/
theorem readLoop_eq (content state : List Nat) :
    readLoop content state = state ++ content := by
  induction content, state using readLoop.induct with
  | case1 content state h =>
    rw [readLoop, if_pos h]
    rw [List.isEmpty_iff] at h
    rw [h, List.append_nil]
  | case2 content state h ih =>
    rw [readLoop, if_neg h, ih, md5Update, List.append_assoc,
      List.take_append_drop]

/-- Folding `md5.update` over a chunk list absorbs the chunks'
concatenation. -/
theorem foldl_md5Update (chunks : List (List Nat)) :
    ∀ init, chunks.foldl md5Update init = init ++ chunks.flatten := by
  induction chunks with
  | nil => intro init; simp
  | cons c cs ih =>
    intro init
    rw [List.foldl_cons, ih, List.flatten_cons, md5Update,
      List.append_assoc]

/-- The `.name` column of the package object `_save_package` saves is the
descriptor's name: a fresh `Package(name=...)` carries it directly, and a
row fetched by `Package.objects.get(name=...)` satisfied the lookup. -/
theorem fetched_package_name (store : Store) (nm : PyVal) :
    ((findPackage store nm).getD { name := nm }).name = nm := by
  cases hfp : findPackage store nm with
  | none => rfl
  | some p0 =>
    unfold findPackage at hfp
    have h1 := List.find?_some hfp
    simpa using h1

/-- Case analysis of one `_save_package` call: either it stopped before
any write and the store is unchanged; or it died on the
`METADATA_FIELDS` `KeyError` after the package/classifier writes but
before the release/distribution writes; or it succeeded, leaving a
package row named after the descriptor, a release row at the
descriptor's (name, version), and exactly one new distribution row whose
digest is `_get_md5` of the file content. -/
theorem savePackage_characterize (md5hex : List Nat → String)
    (store : Store) (users : List UserRec) (metaOpt : Option Meta)
    (path : String) (content : List Nat) (oid : Option String)
    (r : SaveResult) (s' : Store)
    (h : savePackage md5hex store users metaOpt path content oid = (r, s')) :
    ((r = .metaNoneAttributeError ∨ r = .noOwner
        ∨ ∃ n v, r = .alreadyAdded n v) ∧ s' = store)
  ∨ ((∃ v, r = .keyErrorMetadataVersion v)
      ∧ s'.releases = store.releases
      ∧ s'.distributions = store.distributions)
  ∨ (∃ meta, metaOpt = some meta
      ∧ r = .added (meta.getattr "name") (meta.getattr "version")
      ∧ (∃ p, p ∈ s'.packages ∧ p.name = meta.getattr "name")
      ∧ (∃ rr, rr ∈ s'.releases ∧ rr.package = meta.getattr "name"
          ∧ rr.version = meta.getattr "version")
      ∧ ∃ dis, s'.distributions = store.distributions ++ [dis]
          ∧ dis.md5_digest = getMd5 md5hex content) := by
  cases metaOpt with
  | none =>
    simp only [savePackage] at h
    injection h with h1 h2
    exact Or.inl ⟨Or.inl h1.symm, h2.symm⟩
  | some meta =>
    simp only [savePackage] at h
    split at h
    · injection h with h1 h2
      exact Or.inl ⟨Or.inr (Or.inr ⟨_, _, h1.symm⟩), h2.symm⟩
    · split at h
      · injection h with h1 h2
        exact Or.inl ⟨Or.inr (Or.inl h1.symm), h2.symm⟩
      · split at h
        · injection h with h1 h2
          refine Or.inr (Or.inl ⟨⟨_, h1.symm⟩, ?_, ?_⟩)
          · rw [← h2, foldl_addPC_releases, savePackageRow_releases]
          · rw [← h2, foldl_addPC_distributions,
              savePackageRow_distributions]
        · rename_i theOwner howner xinfo info hinfo
          injection h with h1 h2
          subst h2
          refine Or.inr (Or.inr ⟨meta, rfl, h1.symm, ?_, ?_, ?_⟩)
          · dsimp only
            rw [foldl_addPC_packages]
            obtain ⟨q, hq, hqn⟩ := savePackageRow_mem_name store _
            refine ⟨q, hq, ?_⟩
            rw [hqn]
            exact fetched_package_name store _
          · dsimp only
            refine ⟨{ package := meta.getattr "name",
                      version := meta.getattr "version",
                      package_info := info }, ?_, rfl, rfl⟩
            exact List.mem_append_right _ (by simp)
          · dsimp only
            refine ⟨{ package := meta.getattr "name",
                      version := meta.getattr "version",
                      content_name :=
                        RELEASE_UPLOAD_TO ++ "/" ++ lastPathComponent path,
                      md5_digest := getMd5 md5hex content,
                      filetype := getFiletype path,
                      uploader := theOwner.username,
                      comment := "",
                      pyversion :=
                        pyOr (meta.getattr "requires_python") (.str ""),
                      signature := "" }, ?_, rfl⟩
            rw [foldl_addPC_distributions, savePackageRow_distributions]

/-! ## Claim theorems -/

/-- C2, counterexample: the field `"requires"` is legal for metadata
version `"1.1"` but not for `"1.2"`, so the `"1.2"` field set is not a
superset of the `"1.1"` field set as the claim states. -/
theorem c2_nested_field_sets_cex :
    "requires" ∈ (METADATA_FIELDS "1.1").getD []
  ∧ "requires" ∉ (METADATA_FIELDS "1.2").getD [] := by
  decide

/-- C2, amended: the `"1.1"` field set contains every `"1.0"` field, and
the `"1.2"` field set contains every `"1.0"` field, but the `"1.2"` field
set does not contain every `"1.1"` field (it drops `requires`, `provides`
and `obsoletes` in favour of the `_dist`-qualified variants). -/
theorem c2_nested_field_sets_amended :
    ((METADATA_FIELDS "1.0").getD []).all
      (fun f => ((METADATA_FIELDS "1.1").getD []).contains f) = true
  ∧ ((METADATA_FIELDS "1.0").getD []).all
      (fun f => ((METADATA_FIELDS "1.2").getD []).contains f) = true
  ∧ ((METADATA_FIELDS "1.1").getD []).all
      (fun f => ((METADATA_FIELDS "1.2").getD []).contains f) = false := by
  decide

/-- C3: on a request whose declared action is non-empty and unrecognised,
`root` does not return the method-not-allowed response the claim (and the
spec) describe; it raises `AttributeError`, because the code reads
`conf.ACTION_VIEW` (a typo for `conf.ACTION_VIEWS`, which the very next
line spells correctly) and the `conf` module has no such attribute.  No
request at all can produce a method-not-allowed response. -/
theorem c3_unknown_action_attribute_error :
    root { method := "GET", contentType := "text/html", postParams := [],
           getParams := [(":action", "bogus")] }
      = .attributeError "ACTION_VIEW"
  ∧ ∀ (req : Request) (allowed : List String),
      root req ≠ .methodNotAllowed allowed := by
  constructor
  · rfl
  · intro req allowed
    have h : confGetDictAttr "ACTION_VIEW" = none := rfl
    simp only [root, h]
    (repeat' split) <;> simp

/-- C7: `_get_filetype` returns `"sdist"` for filenames ending in `".zip"`
or `".tar.gz"`, `"bdist"` for filenames ending in `".egg"`, and defaults to
`"sdist"` for every other suffix. -/
theorem c7_filetype_classification (f : String) :
    ((strEndsWith f ".zip" || strEndsWith f ".tar.gz") = true →
      getFiletype f = "sdist")
  ∧ (strEndsWith f ".egg" = true → getFiletype f = "bdist")
  ∧ (strEndsWith f ".zip" = false → strEndsWith f ".tar.gz" = false →
      strEndsWith f ".egg" = false → getFiletype f = "sdist") := by
  refine ⟨fun h => by simp [getFiletype, h], fun h => ?_, fun h1 h2 h3 => by
    simp [getFiletype, h1, h2, h3]⟩
  have hegg : (".egg".data : List Char) <:+ f.data := strEndsWith_iff.mp h
  have hz : strEndsWith f ".zip" = false := by
    rw [Bool.eq_false_iff]
    intro hzt
    exact suffix_disjoint hegg (strEndsWith_iff.mp hzt) (by decide)
      (by decide)
  have ht : strEndsWith f ".tar.gz" = false := by
    rw [Bool.eq_false_iff]
    intro htt
    exact suffix_disjoint hegg (strEndsWith_iff.mp htt) (by decide)
      (by decide)
  simp [getFiletype, hz, ht, h]

/-- C7 witness: the classification evaluated on the spec's three example
filenames. -/
theorem c7_filetype_classification_witness :
    getFiletype "foo-1.0.tar.gz" = "sdist"
  ∧ getFiletype "foo-1.0.egg" = "bdist"
  ∧ getFiletype "foo-1.0.whl" = "sdist" :=
  ⟨(c7_filetype_classification "foo-1.0.tar.gz").1 (by decide),
   (c7_filetype_classification "foo-1.0.egg").2.1 (by decide),
   (c7_filetype_classification "foo-1.0.whl").2.2 (by decide) (by decide)
     (by decide)⟩

/-- C9: the blockwise streaming MD5 of `_get_md5` equals the digest of the
artifact's full byte stream; absorbing any partition of the stream into
blocks yields the same digest; and any distribution row present after
`_save_package` ran on this content either predates the call or carries
exactly this digest. -/
theorem c9_md5_streaming (md5hex : List Nat → String) (content : List Nat) :
    getMd5 md5hex content = md5hex content
  ∧ (∀ chunks : List (List Nat), chunks.flatten = content →
      md5hex (chunks.foldl md5Update []) = md5hex content)
  ∧ (∀ (store : Store) (users : List UserRec) (metaOpt : Option Meta)
        (path : String) (oid : Option String) (d : DistributionRec),
      d ∈ (savePackage md5hex store users metaOpt path content
            oid).2.distributions →
      d ∈ store.distributions ∨ d.md5_digest = md5hex content) := by
  have hg : getMd5 md5hex content = md5hex content := by
    rw [getMd5, readLoop_eq, List.nil_append]
  refine ⟨hg, ?_, ?_⟩
  · intro chunks hc
    rw [foldl_md5Update, List.nil_append, hc]
  · intro store users metaOpt path oid d hd
    rcases savePackage_characterize md5hex store users metaOpt path content
        oid (savePackage md5hex store users metaOpt path content oid).1
        (savePackage md5hex store users metaOpt path content oid).2 rfl with
      ⟨_, hs⟩ | ⟨_, _, hdist⟩ | ⟨meta, _, _, _, _, dis, hdist, hdig⟩
    · rw [hs] at hd
      exact Or.inl hd
    · rw [hdist] at hd
      exact Or.inl hd
    · rw [hdist] at hd
      rcases List.mem_append.mp hd with hmem | hmem
      · exact Or.inl hmem
      · right
        rw [List.mem_singleton] at hmem
        rw [hmem, hdig, hg]

/-- C9 witness: the streaming digest on a concrete 3-byte stream, the
partition `[[1], [2, 3]]` of it, and the distribution row created by a
concrete publish. -/
theorem c9_md5_streaming_witness :
    getMd5 constHex [1, 2, 3] = constHex [1, 2, 3]
  ∧ constHex ([[1], [2, 3]].foldl md5Update []) = constHex [1, 2, 3] :=
  ⟨(c9_md5_streaming constHex [1, 2, 3]).1,
   (c9_md5_streaming constHex [1, 2, 3]).2.1 [[1], [2, 3]] rfl⟩

/-- C8: every entry of the metadata blob `_get_pkg_info` builds has a key
in the legal field set of the descriptor's metadata version — declared
fields outside that set are dropped. -/
theorem c8_fields_filtered (m : Meta) (fields : List String)
    (info : List (String × List PyVal))
    (hf : metadataFieldsOf (m.getattr "metadata_version") = some fields)
    (hi : getPkgInfo m = some info) :
    ∀ p ∈ info, p.1 ∈ fields := by
  intro p hp
  unfold getPkgInfo at hi
  rw [hf] at hi
  dsimp only at hi
  injection hi with hi
  rw [← hi] at hp
  obtain ⟨key, hkey, hsome⟩ := List.mem_filterMap.mp hp
  split at hsome
  case isTrue hcond =>
    injection hsome with hsome
    rw [← hsome]
    dsimp only
    rw [Bool.and_eq_true] at hcond
    have := hcond.1
    rw [List.contains_iff_exists_mem_beq] at this
    obtain ⟨a, ha, hab⟩ := this
    rw [beq_iff_eq] at hab
    rw [hab]
    exact ha
  case isFalse hcond =>
    cases hsome

/-- C8 witness: applying the theorem to the `meta10` fixture (a `"1.0"`
upload that also declares `requires_python`) shows the persisted key
`"author"` lies in the `"1.0"` field set; the dropped `requires_python`
is checked by direct evaluation. -/
theorem c8_fields_filtered_witness :
    ("author" ∈ (METADATA_FIELDS "1.0").getD [])
  ∧ "requires_python" ∉
      ((getPkgInfo meta10).getD []).map (fun p => p.1) :=
  ⟨c8_fields_filtered meta10 ((METADATA_FIELDS "1.0").getD [])
      ((getPkgInfo meta10).getD []) rfl rfl
      ("author", [PyVal.str "Alice"]) (by decide),
   by decide⟩

/-- C10: every value of the metadata blob `_get_pkg_info` builds is the
one-element list wrapping the descriptor's attribute for that key. -/
theorem c10_singleton_values (m : Meta)
    (info : List (String × List PyVal)) (hi : getPkgInfo m = some info) :
    ∀ p ∈ info, p.2 = [m.getattr p.1] := by
  intro p hp
  unfold getPkgInfo at hi
  cases hmf : metadataFieldsOf (m.getattr "metadata_version") with
  | none =>
    rw [hmf] at hi
    cases hi
  | some fields =>
    rw [hmf] at hi
    dsimp only at hi
    injection hi with hi
    rw [← hi] at hp
    obtain ⟨key, hkey, hsome⟩ := List.mem_filterMap.mp hp
    split at hsome
    case isTrue hcond =>
      injection hsome with hsome
      rw [← hsome]
    case isFalse hcond =>
      cases hsome

/-- C10 witness: the blob value for `"author"` in the `meta10` fixture is
the singleton wrapping the descriptor's `author` attribute. -/
theorem c10_singleton_values_witness :
    [PyVal.str "Alice"] = [meta10.getattr "author"] :=
  c10_singleton_values meta10 ((getPkgInfo meta10).getD []) rfl
    ("author", [PyVal.str "Alice"]) (by decide)

/-- C1, counterexample: publishing into an empty store an artifact whose
descriptor declares the unknown metadata version `"9.9"` fails at the
field-set lookup (`KeyError`), yet the `Package` table is no longer what
it was — the package row saved before `_get_pkg_info` runs (and the
classifier rows) remain persisted, contradicting the claim that every
failure after metadata extraction begins leaves the Registry Store
unchanged. -/
theorem c1_transactional_cex :
    (savePackage constHex store0 users0 (some meta99) "foo-1.0.tar.gz" []
        none).1 = .keyErrorMetadataVersion (.str "9.9")
  ∧ (savePackage constHex store0 users0 (some meta99) "foo-1.0.tar.gz" []
        none).2.packages ≠ store0.packages := by
  constructor
  · rfl
  · decide

/-- C1, amended: failures that occur before the package row is saved
(unreadable metadata, the already-published skip, unresolved owner) leave
the Registry Store completely unchanged; a failure at the metadata
field-set lookup (unknown metadata version) occurs after the Package and
Classifier writes, so only the Release and Distribution tables are
guaranteed untouched. -/
theorem c1_transactional_amended (md5hex : List Nat → String)
    (store : Store) (users : List UserRec) (metaOpt : Option Meta)
    (path : String) (content : List Nat) (oid : Option String) :
    ((savePackage md5hex store users metaOpt path content oid).1
        = .metaNoneAttributeError →
      (savePackage md5hex store users metaOpt path content oid).2 = store)
  ∧ (∀ n v, (savePackage md5hex store users metaOpt path content oid).1
        = .alreadyAdded n v →
      (savePackage md5hex store users metaOpt path content oid).2 = store)
  ∧ ((savePackage md5hex store users metaOpt path content oid).1
        = .noOwner →
      (savePackage md5hex store users metaOpt path content oid).2 = store)
  ∧ (∀ v, (savePackage md5hex store users metaOpt path content oid).1
        = .keyErrorMetadataVersion v →
      (savePackage md5hex store users metaOpt path content oid).2.releases
          = store.releases
        ∧ (savePackage md5hex store users metaOpt path content
            oid).2.distributions = store.distributions) := by
  have H := savePackage_characterize md5hex store users metaOpt path
    content oid (savePackage md5hex store users metaOpt path content oid).1
    (savePackage md5hex store users metaOpt path content oid).2 rfl
  refine ⟨fun h => ?_, fun n v h => ?_, fun h => ?_, fun v h => ?_⟩ <;>
    rcases H with ⟨hr, hs⟩ | ⟨⟨w, hw⟩, hrel, hdist⟩ | ⟨m, hm, hr, _⟩
  · exact hs
  · rw [h] at hw
    cases hw
  · rw [h] at hr
    cases hr
  · exact hs
  · rw [h] at hw
    cases hw
  · rw [h] at hr
    cases hr
  · exact hs
  · rw [h] at hw
    cases hw
  · rw [h] at hr
    cases hr
  · rcases hr with h1 | h1 | ⟨n, w, h1⟩ <;> rw [h] at h1 <;> cases h1
  · exact ⟨hrel, hdist⟩
  · rw [h] at hr
    cases hr

/-- C1 witness: the amended theorem evaluated on a publish that fails to
resolve an owner (explicit hint `"bob"` unknown): the store is returned
unchanged. -/
theorem c1_transactional_amended_witness :
    (savePackage constHex store0 users0 (some meta10) "foo-1.0.tar.gz" []
      (some "bob")).2 = store0 :=
  (c1_transactional_amended constHex store0 users0 (some meta10)
    "foo-1.0.tar.gz" [] (some "bob")).2.2.1 (by decide)

/-- C4: contrary to the claim (and to the command's own help text), when
no owner identity resolves for a new version of an existing package that
already has an owner, `_save_package` does not proceed keeping the
existing owner — it prints "No owner defined" and aborts without touching
the store, so the `2.0` release is never created. -/
theorem c4_existing_owner_eval :
    savePackage constHex storeFoo users0 (some meta20ghost)
        "foo-2.0.tar.gz" [1, 2, 3] none
      = (.noOwner, storeFoo) := by
  rfl

/-- C5: with an explicit owner hint, `_save_package` resolves it by email
exactly when the hint contains `'@'` and by username otherwise; when that
designated lookup fails, the call rejects with the no-owner outcome and an
unchanged store — for every user table, including ones containing a user
matching the artifact's author email, so the metadata fallback is never
consulted.  When the designated lookup succeeds the call does not reject
with the no-owner outcome. -/
theorem c5_explicit_owner (md5hex : List Nat → String) (store : Store)
    (users : List UserRec) (meta : Meta) (path : String)
    (content : List Nat) (oid : String)
    (hrel : getRelease store (meta.getattr "name")
        (meta.getattr "version") = none) :
    (strContainsChar oid '@' = true →
      (users.find? (fun u => u.email == oid) = none →
        savePackage md5hex store users (some meta) path content (some oid)
          = (.noOwner, store))
      ∧ ∀ u, users.find? (fun u => u.email == oid) = some u →
        (savePackage md5hex store users (some meta) path content
          (some oid)).1 ≠ .noOwner)
  ∧ (strContainsChar oid '@' = false →
      (users.find? (fun u => u.username == oid) = none →
        savePackage md5hex store users (some meta) path content (some oid)
          = (.noOwner, store))
      ∧ ∀ u, users.find? (fun u => u.username == oid) = some u →
        (savePackage md5hex store users (some meta) path content
          (some oid)).1 ≠ .noOwner) := by
  constructor
  · intro hc
    constructor
    · intro hn
      simp only [savePackage, hrel, hc, hn]
      simp
    · intro u hu
      simp only [savePackage, hrel, hc, hu, if_true]
      split
      · simp_all
      · split <;> simp
  · intro hc
    constructor
    · intro hn
      simp only [savePackage, hrel, hc, hn]
      simp
    · intro u hu
      simp only [savePackage, hrel, hc, hu, Bool.false_eq_true, if_false]
      split
      · simp_all
      · split <;> simp

/-- C5 witness: with user table `[alice]`, the unknown explicit hints
`"bob@x.com"` (resolved by email) and `"bob"` (resolved by username) are
both rejected with the store unchanged. -/
theorem c5_explicit_owner_witness :
    savePackage constHex store0 users0 (some meta10) "foo-1.0.tar.gz" []
        (some "bob@x.com") = (.noOwner, store0)
  ∧ savePackage constHex store0 users0 (some meta10) "foo-1.0.tar.gz" []
        (some "bob") = (.noOwner, store0) :=
  ⟨((c5_explicit_owner constHex store0 users0 meta10 "foo-1.0.tar.gz" []
      "bob@x.com" rfl).1 (by decide)).1 (by decide),
   ((c5_explicit_owner constHex store0 users0 meta10 "foo-1.0.tar.gz" []
      "bob" rfl).2 (by decide)).1 (by decide)⟩

/-- When the target package exists and a release at exactly the target
version exists, `_save_package` takes the already-added skip branch and
returns with the store untouched. -/
theorem savePackage_skip (md5hex : List Nat → String) (store : Store)
    (users : List UserRec) (meta : Meta) (path : String)
    (content : List Nat) (oid : Option String)
    (hfp : ∃ p, findPackage store (meta.getattr "name") = some p)
    (hrel : ∃ rr, getRelease store (meta.getattr "name")
        (meta.getattr "version") = some rr) :
    savePackage md5hex store users (some meta) path content oid
      = (.alreadyAdded (meta.getattr "name") (meta.getattr "version"),
         store) := by
  obtain ⟨p, hp⟩ := hfp
  obtain ⟨rr, hrr⟩ := hrel
  have hv : (rr.version == meta.getattr "version") = true := by
    have h2 := hrr
    unfold getRelease at h2
    have h3 := List.find?_some h2
    rw [Bool.and_eq_true] at h3
    exact h3.2
  simp only [savePackage, hp, hrr, hv]
  simp

/-- C6: if a publish succeeded (`added`), running the very same publish
again returns the already-added skip (not an error) and leaves the
Registry Store exactly as it was after the first publish — no duplicate
and no modified rows.  (`ppadd.py` skips unconditionally, so this holds in
particular under the default disabled overwrite policy.) -/
theorem c6_republish_idempotent (md5hex : List Nat → String)
    (store : Store) (users : List UserRec) (meta : Meta) (path : String)
    (content : List Nat) (oid : Option String)
    (h : ((savePackage md5hex store users (some meta) path content
        oid).1).isAdded = true) :
    savePackage md5hex
        (savePackage md5hex store users (some meta) path content oid).2
        users (some meta) path content oid
      = (.alreadyAdded (meta.getattr "name") (meta.getattr "version"),
         (savePackage md5hex store users (some meta) path content oid).2)
    := by
  rcases savePackage_characterize md5hex store users (some meta) path
      content oid
      (savePackage md5hex store users (some meta) path content oid).1
      (savePackage md5hex store users (some meta) path content oid).2 rfl
    with ⟨hr, _⟩ | ⟨⟨v, hv⟩, _, _⟩
      | ⟨mm, hm, hr, ⟨p, hp, hpn⟩, ⟨rr, hrr, hrp, hrv⟩, _⟩
  · rcases hr with h1 | h1 | ⟨n, v, h1⟩ <;> rw [h1] at h <;>
      simp [SaveResult.isAdded] at h
  · rw [hv] at h
    simp [SaveResult.isAdded] at h
  · injection hm with hm
    subst hm
    apply savePackage_skip
    · unfold findPackage
      exact Option.isSome_iff_exists.mp
        (List.find?_isSome.mpr ⟨p, hp, by simp [hpn]⟩)
    · unfold getRelease
      exact Option.isSome_iff_exists.mp
        (List.find?_isSome.mpr ⟨rr, hrr, by simp [hrp, hrv]⟩)

/-- C6 witness: a concrete first publish of `foo 1.0` succeeds, and
repeating it returns the already-added skip with the store unchanged. -/
theorem c6_republish_idempotent_witness :
    savePackage constHex
        (savePackage constHex store0 users0 (some meta10) "foo-1.0.tar.gz"
          [1, 2, 3] none).2
        users0 (some meta10) "foo-1.0.tar.gz" [1, 2, 3] none
      = (.alreadyAdded (meta10.getattr "name") (meta10.getattr "version"),
         (savePackage constHex store0 users0 (some meta10)
           "foo-1.0.tar.gz" [1, 2, 3] none).2) :=
  c6_republish_idempotent constHex store0 users0 meta10 "foo-1.0.tar.gz"
    [1, 2, 3] none (by decide)

end DjangoPyPI
